import Mathlib

/-!
Shallow embedding of `code_analyzer.py` (a static style checker) and proofs
about it.

The embedding translates the source functions one by one:
* `Error` with its `error_codes` catalogue and `message` method,
* the rule predicates `indentation_check`, `semicolon_check`,
  `preceding_spaces_check`, `todo_check`, `spaces_after_construction_name`,
  `camel_case_check`, `snake_case_check`,
* the line scanner `file_as_strings_analyzer`,
* the tree scanner `file_as_ast_analyzer` over an explicit syntax-tree type
  (`PyNode`), with `ast.walk`'s breadth-first traversal modelled by `walk`,
* the per-file driver `static_code_analyzer`; reading the file and parsing
  the text are external collaborators, so the driver takes the parser's
  result (`Except` a parse error) as an argument.

Python strings are modelled as Lean `String`s, indices as `Nat`, `str.index`
as a first-occurrence search returning `Option Nat`, and Python's builtin
stable `sorted` as Mathlib's stable `List.insertionSort` over the same key.
Character classes (`[A-Z]`, `\w`, whitespace, `str.lower`) are modelled over
ASCII, which covers every identifier and line the rules distinguish here.
-/

namespace CodeAnalyzer

/-- Python whitespace (`str.lstrip` with no argument, regex `\s`), ASCII part:
space, tab, newline, carriage return, vertical tab, form feed. -/
def pyIsSpace (c : Char) : Bool :=
  c == ' ' || c == '\t' || c == '\n' || c == '\r' ||
    c == Char.ofNat 11 || c == Char.ofNat 12

/-- Index of the first occurrence of character `c`, Python's `line.index(c)`
(which the source only calls under an `in` guard, so the `none` case is
never hit there). -/
def firstIdx (cs : List Char) (c : Char) : Option Nat :=
  match cs with
  | [] => none
  | d :: rest => if d == c then some 0 else (firstIdx rest c).map (· + 1)

/-- Test `matchesAt needle hay`: the needle is an initial segment of the haystack. -/
def matchesAt : List Char → List Char → Bool
  | [], _ => true
  | _ :: _, [] => false
  | n :: ns, h :: hs => n == h && matchesAt ns hs

/-- Index of the first occurrence of the substring `needle`, Python's
`line.index(needle)` / the `needle in line` test. -/
def firstSubIdx (hay needle : List Char) : Option Nat :=
  match hay with
  | [] => if matchesAt needle [] then some 0 else none
  | c :: rest =>
    if matchesAt needle (c :: rest) then some 0
    else (firstSubIdx rest needle).map (· + 1)

/-- Python slice `l[a:b]` for `0 ≤ a ≤ b` (out-of-range ends clamp, exactly
like `drop`/`take`). -/
def pySlice {α : Type} (l : List α) (a b : Nat) : List α :=
  (l.drop a).take (b - a)

/-- Python `s.lower()`, ASCII part. -/
def pyLower (s : String) : String :=
  String.mk (s.toList.map Char.toLower)

/-- Drop trailing characters satisfying `p`. -/
def dropTrailing (p : Char → Bool) (cs : List Char) : List Char :=
  (cs.reverse.dropWhile p).reverse

/-- Python `s.strip(chr)` for a single strip character. -/
def pyStripChar (c : Char) (s : String) : String :=
  String.mk (dropTrailing (· == c) (s.toList.dropWhile (· == c)))

/-- Python `s.rstrip(chr)` for a single strip character. -/
def pyRstripChar (c : Char) (s : String) : String :=
  String.mk (dropTrailing (· == c) s.toList)

/-- Python `s.lstrip()` (strip leading whitespace). -/
def pyLstrip (s : String) : String :=
  String.mk (s.toList.dropWhile pyIsSpace)

/-- Python `str.splitlines` restricted to the line separators that occur in
source files: `\n`, `\r\n` and `\r` (Python also splits on a few rarer
control characters, which the analyzed programs never contain).
No trailing empty line is produced for a trailing separator. -/
def splitlinesAux : List Char → List Char → List String
  | [], acc => if acc.isEmpty then [] else [String.mk acc.reverse]
  | '\r' :: '\n' :: rest, acc => String.mk acc.reverse :: splitlinesAux rest []
  | '\n' :: rest, acc => String.mk acc.reverse :: splitlinesAux rest []
  | '\r' :: rest, acc => String.mk acc.reverse :: splitlinesAux rest []
  | c :: rest, acc => splitlinesAux rest (c :: acc)

/-- Python `code.splitlines()`. -/
def pySplitlines (s : String) : List String :=
  splitlinesAux s.toList []

/-- One recorded style violation, the Python class `Error`:
file path, 1-based line number, error code `"S001"`–`"S012"`, and the
`*args` tuple (`additional_info`) holding the offending identifier for the
naming codes S008–S011. -/
structure Error where
  path : String
  line_num : Nat
  error_code : String
  additional_info : List String
deriving DecidableEq, Repr

/-- A message catalogue entry: a plain text, or (for the naming codes
S008–S011, stored in Python as a two-element list joined around the name)
a pre/post pair wrapped around the offending identifier. -/
inductive Template where
  | plain (msg : String) : Template
  | wrapped (pre post : String) : Template
deriving DecidableEq, Repr

/-- The `Error.error_codes` catalogue. (`\x27` is the ASCII apostrophe that
the Python source writes around the interpolated identifier.) -/
def error_codes (code : String) : Template :=
  match code with
  | "S001" => .plain "Too long"
  | "S002" => .plain "Indentation is not a multiple of four"
  | "S003" => .plain "Unnecessary semicolon"
  | "S004" => .plain "At least two spaces required before inline comments"
  | "S005" => .plain "TODO found"
  | "S006" => .plain "More than two blank lines preceding a code line"
  | "S007" => .plain "Too many spaces after construction_name(def or class)"
  | "S008" => .wrapped "Class name \x27" "\x27 should be written in CamelCase"
  | "S009" => .wrapped "Function name \x27" "\x27 should be written in snake_case"
  | "S010" => .wrapped "Argument name \x27" "\x27 should be written in snake_case"
  | "S011" => .wrapped "Variable \x27" "\x27 should be written in snake_case"
  | "S012" => .plain "The default argument value is mutable"
  | _ => .plain ""

/-- The method `Error.message`: for S008–S011 the stored identifier is joined between
the two catalogue parts (`self.additional_info[0].join(...)`), otherwise the
catalogue text is used as is. -/
def Error.message (e : Error) : String :=
  let body :=
    match error_codes e.error_code with
    | .plain m => m
    | .wrapped pre post => pre ++ e.additional_info.headD "" ++ post
  e.path ++ ": Line " ++ toString e.line_num ++ ": " ++ e.error_code ++ " " ++ body

/-- The check `indentation_check`: the count of leading whitespace characters
(`len(line) - len(line.lstrip())`) is not a multiple of 4. -/
def indentation_check (line : String) : Bool :=
  decide ((line.toList.length - (pyLstrip line).toList.length) % 4 ≠ 0)

/-- The check `semicolon_check`: the line ends with `;` and holds no `#`, or it holds
both and the first `;` precedes the first `#`. -/
def semicolon_check (line : String) : Bool :=
  let cs := line.toList
  if cs.getLast? == some ';' && !cs.contains '#' then
    true
  else if cs.contains ';' && cs.contains '#' then
    decide ((firstIdx cs ';').getD 0 < (firstIdx cs '#').getD 0)
  else
    false

/-- The check `preceding_spaces_check`: a `#` occurs at index `i > 2` and `line[i-2:i]`
is not two spaces. -/
def preceding_spaces_check (line : String) : Bool :=
  match firstIdx line.toList '#' with
  | some i => decide (i > 2) && !(pySlice line.toList (i - 2) i == [' ', ' '])
  | none => false

/-- The check `todo_check`: on the lowered line, `todo` and `#` both occur and the
first occurrence of `todo` lies strictly after the first `#`. -/
def todo_check (line : String) : Bool :=
  let cs := (pyLower line).toList
  match firstSubIdx cs ['t', 'o', 'd', 'o'], firstIdx cs '#' with
  | some ti, some hi => decide (ti > hi)
  | _, _ => false

/-- True when the character at index `i` exists and is not whitespace
(regex `\S` at that position). -/
def nonSpaceAt (cs : List Char) (i : Nat) : Bool :=
  match cs.drop i with
  | c :: _ => !pyIsSpace c
  | [] => false

/-- The check `spaces_after_construction_name`: after `lstrip`, the line starts with
`class ` or `def ` (regex `(class|def) `) but not with that keyword, the
space and then a non-space character (regex `(class|def) \S`). -/
def spaces_after_construction_name (line : String) : Bool :=
  let cs := line.toList.dropWhile pyIsSpace
  let kwClass := "class ".toList
  let kwDef := "def ".toList
  (matchesAt kwClass cs || matchesAt kwDef cs) &&
    !((matchesAt kwClass cs && nonSpaceAt cs 6) ||
      (matchesAt kwDef cs && nonSpaceAt cs 4))

/-- The check `camel_case_check`: `re.match(r'[A-Z]\w+', string)` succeeds exactly when
the string has at least two characters, the first in `A`–`Z` and the second a
word character; the check reports a violation when the match fails. -/
def camel_case_check (string : String) : Bool :=
  match string.toList with
  | c0 :: c1 :: _ =>
    !(('A' ≤ c0 && c0 ≤ 'Z') && (c1.isAlphanum || c1 == '_'))
  | _ => true

/-- A character allowed by the character class `[a-z0-9_]`. -/
def isSnakeChar (c : Char) : Bool :=
  ('a' ≤ c && c ≤ 'z') || ('0' ≤ c && c ≤ '9') || c == '_'

/-- The check `snake_case_check`: `re.fullmatch(r'_*[a-z0-9_]+', string)` succeeds
exactly when the string is non-empty and every character is in `[a-z0-9_]`
(the leading `_*` may match empty, and `_` itself is in the class); the
check reports a violation when the match fails. -/
def snake_case_check (string : String) : Bool :=
  !(!string.toList.isEmpty && string.toList.all isSnakeChar)

/-- Python `if cond: errors.append(e)` as a list fragment. -/
def emit (b : Bool) (e : Error) : List Error :=
  if b then [e] else []

/-- The body of `file_as_strings_analyzer`'s loop for one value of
`line_num` (Python `enumerate(lines)` pairs each index with
`lines[line_num]`, embedded as an index lookup). -/
def string_line_errors (file_path : String) (lines : List String)
    (line_num : Nat) : List Error :=
  let line := pyStripChar '\n' (lines.getD line_num "")
  emit (decide ((pyRstripChar '\n' line).toList.length > 79))
      ⟨file_path, line_num + 1, "S001", []⟩ ++
  emit (indentation_check line) ⟨file_path, line_num + 1, "S002", []⟩ ++
  emit (semicolon_check line) ⟨file_path, line_num + 1, "S003", []⟩ ++
  emit (preceding_spaces_check line) ⟨file_path, line_num + 1, "S004", []⟩ ++
  emit (todo_check line) ⟨file_path, line_num + 1, "S005", []⟩ ++
  emit (decide (line_num > 2) && (pySlice lines (line_num - 3) line_num == ["", "", ""]))
      ⟨file_path, line_num + 1, "S006", []⟩ ++
  emit (spaces_after_construction_name line) ⟨file_path, line_num + 1, "S007", []⟩

/-- The scanner `file_as_strings_analyzer`: the S001–S007 errors, produced line by line. -/
def file_as_strings_analyzer (file_path : String) (lines : List String) :
    List Error :=
  (List.range lines.length).flatMap (string_line_errors file_path lines)

/-- The static kind of a default-value expression, as far as the scanner
inspects it: `isinstance(default_arg, ast.List / ast.Set / ast.Dict)`. -/
inductive PyDefaultKind where
  | listLit : PyDefaultKind
  | setLit : PyDefaultKind
  | dictLit : PyDefaultKind
  | otherExpr : PyDefaultKind
deriving DecidableEq, Repr

/-- An assignment target, as far as the scanner inspects it:
`isinstance(node.targets[0], ast.Name)` with the identifier, or any
non-`Name` target (attribute access, subscript, tuple/list unpacking, ...). -/
inductive PyTarget where
  | name (id : String) : PyTarget
  | attributeT : PyTarget
  | subscriptT : PyTarget
  | tupleT : PyTarget
deriving DecidableEq, Repr

/-- Test that is `true` exactly on `isinstance(target, ast.Name)`. -/
def PyTarget.isName : PyTarget → Bool
  | .name _ => true
  | _ => false

/-- The syntax tree handed over by the parser collaborator (`ast.parse`),
restricted to what the tree scanner dispatches on: class definitions,
function definitions (name, declaration line, positional-argument names
`args.args`, default-value kinds `args.defaults`, body), assignments
(targets and line), the module root, and any other statement that may hold
nested statements. -/
inductive PyNode where
  | classDef (name : String) (lineno : Nat) (body : List PyNode) : PyNode
  | functionDef (name : String) (lineno : Nat) (args : List String)
      (defaults : List PyDefaultKind) (body : List PyNode) : PyNode
  | assign (lineno : Nat) (targets : List PyTarget) : PyNode
  | module (body : List PyNode) : PyNode
  | other (body : List PyNode) : PyNode

/-- The child statements `ast.walk` pushes for one node. (For the node
kinds above the relevant children all sit in the statement body; default
expressions and targets carry no class/function/assignment nodes.) -/
def PyNode.children : PyNode → List PyNode
  | .classDef _ _ body => body
  | .functionDef _ _ _ _ body => body
  | .assign _ _ => []
  | .module body => body
  | .other body => body

mutual

/-- Number of nodes in a tree (each node counts once). -/
def pySize : PyNode → Nat
  | .classDef _ _ body => 1 + pySizeList body
  | .functionDef _ _ _ _ body => 1 + pySizeList body
  | .assign _ _ => 1
  | .module body => 1 + pySizeList body
  | .other body => 1 + pySizeList body

/-- Number of nodes in a forest. -/
def pySizeList : List PyNode → Nat
  | [] => 0
  | n :: rest => pySize n + pySizeList rest

end

/-- One step of `ast.walk`'s breadth-first traversal: pop the queue's head,
yield it, push its children at the back. The fuel argument only bounds the
number of dequeued nodes so that the recursion is structural; a whole
traversal dequeues exactly `pySizeList queue` nodes, and
`walkFuel_eq_of_le` shows any fuel of at least that size gives the same
traversal. -/
def walkFuel : Nat → List PyNode → List PyNode
  | 0, _ => []
  | _ + 1, [] => []
  | fuel + 1, n :: rest => n :: walkFuel fuel (rest ++ n.children)

/-- Python `ast.walk(tree)`: the tree's nodes in breadth-first order, starting at
the root. -/
def walk (tree : PyNode) : List PyNode :=
  walkFuel (pySize tree) [tree]

/-- The argument-casing loop of `file_as_ast_analyzer`: walk the positional
arguments, and on the first one failing `snake_case_check` append a single
S010 error — carrying `function_name`, as the source does — and `break`. -/
def arg_casing_errors (file_path function_name : String) (lineno : Nat) :
    List String → List Error
  | [] => []
  | arg :: rest =>
    if snake_case_check arg then [⟨file_path, lineno, "S010", [function_name]⟩]
    else arg_casing_errors file_path function_name lineno rest

/-- The body of `file_as_ast_analyzer`'s loop for one walked node: the three
`isinstance` dispatches (`ClassDef`, `FunctionDef`, `Assign`) are disjoint,
so they are rendered as one match. -/
def process_node (file_path : String) : PyNode → List Error
  | .classDef class_name lineno _ =>
    emit (camel_case_check class_name) ⟨file_path, lineno, "S008", [class_name]⟩
  | .functionDef function_name lineno args defaults _ =>
    emit (snake_case_check function_name)
        ⟨file_path, lineno, "S009", [function_name]⟩ ++
    arg_casing_errors file_path function_name lineno args ++
    defaults.flatMap (fun default_arg =>
      emit (default_arg == .listLit || default_arg == .setLit || default_arg == .dictLit)
        ⟨file_path, lineno, "S012", []⟩)
  | .assign lineno targets =>
    match targets.head? with
    | some (.name variable_name) =>
      emit (snake_case_check variable_name)
        ⟨file_path, lineno, "S011", [variable_name]⟩
    | _ => []
  | .module _ => []
  | .other _ => []

/-- The scanner `file_as_ast_analyzer`: the S008–S012 errors, produced while iterating
over `ast.walk(tree)`. -/
def file_as_ast_analyzer (file_path : String) (tree : PyNode) : List Error :=
  (walk tree).flatMap (process_node file_path)

/-- The sort key order of `static_code_analyzer`:
`key=(lambda error: (error.line_num, error.error_code))`, tuples compared
lexicographically with Python's code-point string order on the codes. -/
def errorLe (a b : Error) : Prop :=
  a.line_num < b.line_num ∨
    (a.line_num = b.line_num ∧ a.error_code.toList ≤ b.error_code.toList)

instance : DecidableRel errorLe := fun a b => by
  unfold errorLe; infer_instance

instance : IsTrans Error errorLe := by
  constructor
  intro a b c hab hbc
  rcases hab with h | ⟨h, hcode⟩ <;> rcases hbc with h' | ⟨h', hcode'⟩
  · exact Or.inl (by omega)
  · exact Or.inl (by omega)
  · exact Or.inl (by omega)
  · exact Or.inr ⟨by omega, le_trans hcode hcode'⟩

instance : IsTotal Error errorLe := by
  constructor
  intro a b
  rcases Nat.lt_trichotomy a.line_num b.line_num with h | h | h
  · exact Or.inl (Or.inl h)
  · rcases le_total a.error_code.toList b.error_code.toList with hc | hc
    · exact Or.inl (Or.inr ⟨h, hc⟩)
    · exact Or.inr (Or.inr ⟨h.symm, hc⟩)
  · exact Or.inr (Or.inl h)

/-- The driver `static_code_analyzer`: split the content into lines, run the line
scanner, parse (delegated to the external parser collaborator, whose result
is the `parsed` argument — a failure there propagates uncaught, discarding
the line scanner's errors), run the tree scanner, and return the combined
list sorted by `(line_num, error_code)`. Python's builtin `sorted` is a
stable sort by that key; it is embedded as the stable `insertionSort` over
the same total preorder. -/
def static_code_analyzer (file_path : String) (code : String)
    (parsed : Except String PyNode) : Except String (List Error) :=
  let lines := pySplitlines code
  let line_errors := file_as_strings_analyzer file_path lines
  match parsed with
  | .error e => .error e
  | .ok tree =>
    .ok (List.insertionSort errorLe (line_errors ++ file_as_ast_analyzer file_path tree))

/-! ### Claim-side definitions

Predicates written from the claims' own wording, used to compare a claim's
reading of a rule with the source's rule predicate. -/

/-- Character `c` occurs at index `i` and at no smaller index. -/
def first_occ_at (cs : List Char) (c : Char) (i : Nat) : Prop :=
  cs[i]? = some c ∧ ∀ k < i, cs[k]? ≠ some c

/-- The substring `needle` occurs starting at index `i`. -/
def occurs_at (cs needle : List Char) (i : Nat) : Prop :=
  matchesAt needle (cs.drop i) = true

/-- The substring `needle` occurs at index `i` and at no smaller index. -/
def first_sub_occ_at (cs needle : List Char) (i : Nat) : Prop :=
  occurs_at cs needle i ∧ ∀ k < i, ¬ occurs_at cs needle k

/-- The claim's notion of a line's code portion: the text preceding the
first `#` when one is present, the whole line otherwise. -/
def code_portion (line : String) : List Char :=
  match firstIdx line.toList '#' with
  | some i => line.toList.take i
  | none => line.toList

/-- The trailing-semicolon rule as the claim words it: the code portion
ends with `;`. -/
def claimed_semicolon_cond (line : String) : Prop :=
  (code_portion line).getLast? = some ';'

/-- The TODO rule as the claim words it: the case-insensitive text contains
an occurrence of `todo` lying after a `#` marker on the same line. -/
def claimed_todo_cond (line : String) : Prop :=
  ∃ i j, occurs_at (pyLower line).toList ['t', 'o', 'd', 'o'] i ∧
    (pyLower line).toList[j]? = some '#' ∧ j < i

/-! ### Helper lemmas -/

lemma firstIdx_eq_some_iff (c : Char) :
    ∀ (cs : List Char) (i : Nat), firstIdx cs c = some i ↔ first_occ_at cs c i := by
  intro cs
  induction cs with
  | nil => intro i; simp [firstIdx, first_occ_at]
  | cons d rest ih =>
    intro i
    simp only [firstIdx]
    by_cases hd : d = c
    · subst hd
      rw [if_pos (by simp)]
      constructor
      · intro h
        injection h with h
        subst h
        exact ⟨by simp, by intro k hk; exact absurd hk (Nat.not_lt_zero k)⟩
      · rintro ⟨hget, hmin⟩
        rcases i with _ | i
        · rfl
        · exact absurd (show (d :: rest)[0]? = some d by simp)
            (hmin 0 (Nat.succ_pos i))
    · rw [if_neg (by simpa using hd), Option.map_eq_some']
      constructor
      · rintro ⟨i', hi', hadd⟩
        subst hadd
        rcases (ih i').mp hi' with ⟨hget, hmin⟩
        refine ⟨by simpa using hget, ?_⟩
        intro k hk
        rcases k with _ | k
        · simpa using hd
        · simpa using hmin k (by omega)
      · rintro ⟨hget, hmin⟩
        rcases i with _ | i
        · exact absurd (by simpa using hget) hd
        · refine ⟨i, (ih i).mpr ⟨by simpa using hget, ?_⟩, rfl⟩
          intro k hk
          simpa using hmin (k + 1) (by omega)

lemma firstIdx_eq_none_iff (c : Char) :
    ∀ cs : List Char, firstIdx cs c = none ↔ c ∉ cs := by
  intro cs
  induction cs with
  | nil => simp [firstIdx]
  | cons d rest ih =>
    simp only [firstIdx]
    by_cases hd : d = c
    · subst hd; simp
    · rw [if_neg (by simpa using hd), Option.map_eq_none']
      simp [ih, Ne.symm hd]

lemma first_occ_at_unique {cs : List Char} {c : Char} {i j : Nat}
    (hi : first_occ_at cs c i) (hj : first_occ_at cs c j) : i = j := by
  rcases Nat.lt_trichotomy i j with h | h | h
  · exact absurd hi.1 (hj.2 i h)
  · exact h
  · exact absurd hj.1 (hi.2 j h)

lemma first_occ_of_mem {cs : List Char} {c : Char} (h : c ∈ cs) :
    first_occ_at cs c ((firstIdx cs c).getD 0) := by
  rcases ho : firstIdx cs c with _ | i
  · exact absurd ((firstIdx_eq_none_iff c cs).mp ho) (by simpa using h)
  · simpa using (firstIdx_eq_some_iff c cs i).mp ho

lemma contains_iff_mem (cs : List Char) (c : Char) :
    cs.contains c = true ↔ c ∈ cs := by
  simp [List.contains]

lemma occurs_at_nil_iff (needle : List Char) (i : Nat) :
    occurs_at [] needle i ↔ matchesAt needle [] = true := by
  simp [occurs_at]

lemma occurs_at_cons_zero (d : Char) (rest needle : List Char) :
    occurs_at (d :: rest) needle 0 ↔ matchesAt needle (d :: rest) = true := by
  simp [occurs_at]

lemma occurs_at_cons_succ (d : Char) (rest needle : List Char) (k : Nat) :
    occurs_at (d :: rest) needle (k + 1) ↔ occurs_at rest needle k := by
  simp [occurs_at]

lemma firstSubIdx_eq_some_iff (needle : List Char) :
    ∀ (hay : List Char) (i : Nat),
      firstSubIdx hay needle = some i ↔ first_sub_occ_at hay needle i := by
  intro hay
  induction hay with
  | nil =>
    intro i
    simp only [firstSubIdx, first_sub_occ_at, occurs_at_nil_iff]
    by_cases hm : matchesAt needle [] = true
    · rw [if_pos hm]
      constructor
      · intro h
        injection h with h
        subst h
        exact ⟨hm, by intro k hk; exact absurd hk (Nat.not_lt_zero k)⟩
      · rintro ⟨-, hmin⟩
        rcases i with _ | i
        · rfl
        · exact absurd hm (hmin 0 (Nat.succ_pos i))
    · rw [if_neg hm]
      simp [hm]
  | cons d rest ih =>
    intro i
    simp only [firstSubIdx]
    by_cases hm : matchesAt needle (d :: rest) = true
    · rw [if_pos hm]
      constructor
      · intro h
        injection h with h
        subst h
        exact ⟨(occurs_at_cons_zero d rest needle).mpr hm,
          by intro k hk; exact absurd hk (Nat.not_lt_zero k)⟩
      · rintro ⟨-, hmin⟩
        rcases i with _ | i
        · rfl
        · exact absurd ((occurs_at_cons_zero d rest needle).mpr hm)
            (hmin 0 (Nat.succ_pos i))
    · rw [if_neg hm, Option.map_eq_some']
      constructor
      · rintro ⟨i', hi', hadd⟩
        subst hadd
        rcases (ih i').mp hi' with ⟨hocc, hmin⟩
        refine ⟨(occurs_at_cons_succ d rest needle i').mpr hocc, ?_⟩
        intro k hk
        rcases k with _ | k
        · rw [occurs_at_cons_zero]; exact hm
        · rw [occurs_at_cons_succ]; exact hmin k (by omega)
      · rintro ⟨hocc, hmin⟩
        rcases i with _ | i
        · exact absurd ((occurs_at_cons_zero d rest needle).mp hocc) hm
        · refine ⟨i, (ih i).mpr
            ⟨(occurs_at_cons_succ d rest needle i).mp hocc, ?_⟩, rfl⟩
          intro k hk
          have := hmin (k + 1) (by omega)
          rwa [occurs_at_cons_succ] at this

lemma first_sub_occ_at_unique {cs needle : List Char} {i j : Nat}
    (hi : first_sub_occ_at cs needle i) (hj : first_sub_occ_at cs needle j) :
    i = j := by
  rcases Nat.lt_trichotomy i j with h | h | h
  · exact absurd hi.1 (hj.2 i h)
  · exact h
  · exact absurd hj.1 (hi.2 j h)

lemma filter_emit (p : Error → Bool) (b : Bool) (e : Error) :
    (emit b e).filter p = if b && p e then [e] else [] := by
  cases b <;> cases hp : p e <;> simp [emit, hp]

lemma countP_emit (p : Error → Bool) (b : Bool) (e : Error) :
    (emit b e).countP p = if b && p e then 1 else 0 := by
  cases b <;> cases hp : p e <;> simp [emit, List.countP_cons, hp]

lemma countP_s010_arg_casing (fp fn : String) (ln : Nat) :
    ∀ args : List String,
      (arg_casing_errors fp fn ln args).countP (fun e => e.error_code == "S010")
        = if args.any snake_case_check then 1 else 0 := by
  intro args
  induction args with
  | nil => rfl
  | cons a rest ih =>
    simp only [arg_casing_errors, List.any_cons]
    by_cases ha : snake_case_check a = true
    · rw [if_pos ha]
      simp only [ha, Bool.true_or, if_pos]
      rfl
    · rw [if_neg ha, ih]
      rw [Bool.not_eq_true] at ha
      simp [ha]

lemma countP_s010_defaults (fp : String) (ln : Nat) :
    ∀ defaults : List PyDefaultKind,
      ((defaults.flatMap fun default_arg =>
          emit (default_arg == .listLit || default_arg == .setLit || default_arg == .dictLit)
            ⟨fp, ln, "S012", []⟩).countP (fun e => e.error_code == "S010")) = 0 := by
  intro defaults
  induction defaults with
  | nil => rfl
  | cons d rest ih =>
    simp only [List.flatMap_cons, List.countP_append, ih, Nat.add_zero]
    cases (d == .listLit || d == .setLit || d == .dictLit) <;> rfl

lemma filter_s012_arg_casing (fp fn : String) (ln : Nat) :
    ∀ args : List String,
      (arg_casing_errors fp fn ln args).filter (fun e => e.error_code == "S012") = [] := by
  intro args
  induction args with
  | nil => rfl
  | cons a rest ih =>
    simp only [arg_casing_errors]
    by_cases ha : snake_case_check a = true
    · rw [if_pos ha]; rfl
    · rw [if_neg ha]; exact ih

lemma filter_s012_defaults (fp : String) (ln : Nat) :
    ∀ defaults : List PyDefaultKind,
      ((defaults.flatMap fun default_arg =>
          emit (default_arg == .listLit || default_arg == .setLit || default_arg == .dictLit)
            ⟨fp, ln, "S012", []⟩).filter (fun e => e.error_code == "S012"))
        = List.replicate
            (defaults.countP fun d => d == .listLit || d == .setLit || d == .dictLit)
            ⟨fp, ln, "S012", []⟩ := by
  intro defaults
  induction defaults with
  | nil => rfl
  | cons d rest ih =>
    simp only [List.flatMap_cons, List.filter_append, ih, List.countP_cons]
    cases hd : (d == .listLit || d == .setLit || d == .dictLit)
    · simp [emit]
    · simp [emit, List.replicate_succ]

/-! ### The claims -/

/-- Claim C1: for every analyzed file, the violation list returned by
`static_code_analyzer` is sorted ascending by the pair
`(line_num, error_code)`, with the code's lexical order as the secondary
key (the order `errorLe`). -/
theorem claim_C1_sorted_output (file_path code : String)
    (parsed : Except String PyNode) (result : List Error)
    (h : static_code_analyzer file_path code parsed = .ok result) :
    result.Pairwise errorLe := by
  cases parsed with
  | error e => exact absurd h (by simp [static_code_analyzer])
  | ok tree =>
    have hres : result
        = List.insertionSort errorLe
            (file_as_strings_analyzer file_path (pySplitlines code) ++
              file_as_ast_analyzer file_path tree) := by
      simpa [static_code_analyzer] using h.symm
    rw [hres]
    exact List.sorted_insertionSort errorLe _

theorem claim_C1_witness :
    List.Pairwise errorLe
      [⟨"t.py", 1, "S003", []⟩, ⟨"t.py", 1, "S011", ["X"]⟩] :=
  claim_C1_sorted_output "t.py" "X = 1;"
    (.ok (.module [.assign 1 [.name "X"]])) _ rfl

/-- Claim C2 (the code deviates): the analyzed function `def f(BadArg): ...`
yields an S010 violation whose stored identifier (`additional_info`) is the
function name `f`, not the offending argument `BadArg`; the rendered
message then reads `Argument name 'f' ...` against the catalogue's own
wording. -/
theorem claim_C2_s010_subject_is_function_name :
    file_as_ast_analyzer "test.py"
        (.module [.functionDef "f" 1 ["BadArg"] [] []])
      = [⟨"test.py", 1, "S010", ["f"]⟩] ∧
    Error.message ⟨"test.py", 1, "S010", ["f"]⟩
      = "test.py: Line 1: S010 Argument name \x27f\x27 should be written in snake_case" := by
  exact ⟨by decide, by decide⟩

/-- Claim C3: a function definition node emits at most one S010
(argument-casing) violation — exactly one when some positional argument
fails the snake_case check, none otherwise — no matter how many arguments
offend. -/
theorem claim_C3_at_most_one_argument_violation (file_path function_name : String)
    (lineno : Nat) (args : List String) (defaults : List PyDefaultKind)
    (body : List PyNode) :
    ((process_node file_path
          (.functionDef function_name lineno args defaults body)).countP
        (fun e => e.error_code == "S010"))
      = (if args.any snake_case_check then 1 else 0) ∧
    ((process_node file_path
          (.functionDef function_name lineno args defaults body)).countP
        (fun e => e.error_code == "S010")) ≤ 1 := by
  have h : ((process_node file_path
          (.functionDef function_name lineno args defaults body)).countP
        (fun e => e.error_code == "S010"))
      = (if args.any snake_case_check then 1 else 0) := by
    simp only [process_node, List.countP_append,
      countP_s010_arg_casing, countP_s010_defaults, Nat.add_zero]
    have h9 : (emit (snake_case_check function_name)
        ⟨file_path, lineno, "S009", [function_name]⟩).countP
          (fun e => e.error_code == "S010") = 0 := by
      cases snake_case_check function_name <;> rfl
    rw [h9, Nat.zero_add]
  exact ⟨h, by rw [h]; split <;> omega⟩

/-- Claim C7: every default-value expression of list/set/mapping kind yields
exactly one S012 violation at the function's declaration line (the S012
violations of a function node are exactly one copy per mutable default);
in particular `def f(lst=[]):` yields exactly one S012 violation and no
S009 violation for the name `f`. -/
theorem claim_C7_mutable_default_argument :
    (∀ (file_path function_name : String) (lineno : Nat) (args : List String)
        (defaults : List PyDefaultKind) (body : List PyNode),
      ((process_node file_path
            (.functionDef function_name lineno args defaults body)).filter
          (fun e => e.error_code == "S012"))
        = List.replicate
            (defaults.countP fun d => d == .listLit || d == .setLit || d == .dictLit)
            ⟨file_path, lineno, "S012", []⟩) ∧
    file_as_ast_analyzer "test.py"
        (.module [.functionDef "f" 1 ["lst"] [.listLit] []])
      = [⟨"test.py", 1, "S012", []⟩] := by
  constructor
  · intro file_path function_name lineno args defaults body
    simp only [process_node, List.filter_append,
      filter_s012_arg_casing, filter_s012_defaults]
    have h9 : (emit (snake_case_check function_name)
        ⟨file_path, lineno, "S009", [function_name]⟩).filter
          (fun e => e.error_code == "S012") = [] := by
      cases snake_case_check function_name <;> rfl
    rw [h9]
    simp
  · decide

/-- Claim C8: when the parser collaborator fails, `static_code_analyzer`
propagates that failure as its result — it returns the parse error itself,
so no violation list (in particular no partial or empty one) is produced. -/
theorem claim_C8_parse_error_propagates (file_path code e : String) :
    static_code_analyzer file_path code (.error e) = .error e :=
  rfl

/-- Claim C9: the analysis is deterministic — for identical file path,
content and parser result, two runs of `static_code_analyzer` return
identical violation lists. -/
theorem claim_C9_deterministic (fp₁ fp₂ code₁ code₂ : String)
    (parsed₁ parsed₂ : Except String PyNode)
    (hf : fp₁ = fp₂) (hc : code₁ = code₂) (hp : parsed₁ = parsed₂) :
    static_code_analyzer fp₁ code₁ parsed₁
      = static_code_analyzer fp₂ code₂ parsed₂ := by
  rw [hf, hc, hp]

theorem claim_C9_witness :
    static_code_analyzer "d.py" "y = []" (.ok (.module [.assign 1 [.name "y"]]))
      = static_code_analyzer "d.py" "y = []" (.ok (.module [.assign 1 [.name "y"]])) :=
  claim_C9_deterministic "d.py" "d.py" "y = []" "y = []"
    (.ok (.module [.assign 1 [.name "y"]])) (.ok (.module [.assign 1 [.name "y"]]))
    rfl rfl rfl

/-- Claim C10: for an assignment node only the first target is examined:
a simple-identifier first target is checked for S011 (independently of all
later targets), a non-`Name` first target means nothing is checked, and in
particular `a = BadName = 1` yields no violation. -/
theorem claim_C10_only_first_target :
    (∀ (file_path variable_name : String) (lineno : Nat) (rest : List PyTarget),
      process_node file_path (.assign lineno (.name variable_name :: rest))
        = if snake_case_check variable_name
          then [⟨file_path, lineno, "S011", [variable_name]⟩] else []) ∧
    (∀ (file_path : String) (lineno : Nat) (t : PyTarget) (rest : List PyTarget),
      t.isName = false →
        process_node file_path (.assign lineno (t :: rest)) = []) ∧
    process_node "test.py" (.assign 1 [.name "a", .name "BadName"]) = [] := by
  refine ⟨?_, ?_, by decide⟩
  · intro file_path variable_name lineno rest
    rfl
  · intro file_path lineno t rest ht
    cases t with
    | name id => exact absurd ht (by simp [PyTarget.isName])
    | attributeT => rfl
    | subscriptT => rfl
    | tupleT => rfl

theorem claim_C10_witness :
    process_node "w.py" (.assign 2 [PyTarget.attributeT, .name "x"]) = [] :=
  claim_C10_only_first_target.2.1 "w.py" 2 .attributeT [.name "x"] rfl

/-- Claim C4 fails on the code: on `x = 1; y  # c` the code portion before
the first `#` does not end with `;`, yet `semicolon_check` fires, because
the source only compares the positions of the first `;` and the first `#`. -/
theorem claim_C4_counterexample :
    semicolon_check "x = 1; y  # c" = true ∧
      ¬ claimed_semicolon_cond "x = 1; y  # c" := by
  refine ⟨by decide, ?_⟩
  unfold claimed_semicolon_cond
  decide

/-- Claim C4 as amended: S003 fires exactly when either the line contains
no `#` and ends with `;`, or the line contains both `;` and `#` and the
first `;` precedes the first `#`. (The spec example with no `#` is kept:
the whole line must end with `;`.) -/
theorem claim_C4_amended (line : String) :
    semicolon_check line = true ↔
      ((¬ '#' ∈ line.toList ∧ line.toList.getLast? = some ';') ∨
        (∃ i j, first_occ_at line.toList ';' i ∧
          first_occ_at line.toList '#' j ∧ i < j)) := by
  unfold semicolon_check
  by_cases h1 : (line.toList.getLast? == some ';' && !line.toList.contains '#') = true
  · rw [if_pos h1]
    rw [Bool.and_eq_true] at h1
    obtain ⟨hlast, hnc⟩ := h1
    rw [beq_iff_eq] at hlast
    rw [Bool.not_eq_true'] at hnc
    simp only [true_iff]
    refine Or.inl ⟨fun hm => ?_, hlast⟩
    have hcm := (contains_iff_mem _ _).mpr hm
    rw [hnc] at hcm
    exact Bool.false_ne_true hcm
  · rw [if_neg h1]
    by_cases h2 : (line.toList.contains ';' && line.toList.contains '#') = true
    · rw [if_pos h2]
      rw [Bool.and_eq_true] at h2
      have hsemi : ';' ∈ line.toList := (contains_iff_mem _ _).mp h2.1
      have hhash : '#' ∈ line.toList := (contains_iff_mem _ _).mp h2.2
      rw [decide_eq_true_eq]
      constructor
      · intro hlt
        exact Or.inr ⟨_, _, first_occ_of_mem hsemi, first_occ_of_mem hhash, hlt⟩
      · rintro (⟨hnm, -⟩ | ⟨i, j, hi, hj, hij⟩)
        · exact absurd hhash hnm
        · rw [first_occ_at_unique (first_occ_of_mem hsemi) hi,
            first_occ_at_unique (first_occ_of_mem hhash) hj]
          exact hij
    · rw [if_neg h2]
      simp only [Bool.false_eq_true, false_iff]
      rintro (⟨hnm, hlast⟩ | ⟨i, j, hi, hj, hij⟩)
      · apply h1
        rw [Bool.and_eq_true, beq_iff_eq, Bool.not_eq_true']
        refine ⟨hlast, ?_⟩
        rw [← Bool.not_eq_true, contains_iff_mem]
        exact hnm
      · apply h2
        rw [Bool.and_eq_true, contains_iff_mem, contains_iff_mem]
        exact ⟨List.getElem?_mem hi.1, List.getElem?_mem hj.1⟩

/-- Claim C5 fails on the code: `todo = 1  # todo` contains an occurrence
of `todo` after the `#` marker, yet `todo_check` does not fire, because the
source compares the position of the first `todo` occurrence (index 0, in
the code) against the first `#`. -/
theorem claim_C5_counterexample :
    claimed_todo_cond "todo = 1  # todo" ∧
      todo_check "todo = 1  # todo" = false := by
  refine ⟨⟨12, 10, ?_, by decide, by decide⟩, by decide⟩
  unfold occurs_at
  decide

/-- Claim C5 as amended: S005 fires exactly when, on the lowered line, both
`todo` and `#` occur and the first occurrence of `todo` lies strictly after
the first `#`; in particular `x = 1  # todo fix this` fires. -/
theorem claim_C5_amended :
    (∀ line : String, todo_check line = true ↔
      (∃ i j, first_sub_occ_at (pyLower line).toList ['t', 'o', 'd', 'o'] i ∧
        first_occ_at (pyLower line).toList '#' j ∧ j < i)) ∧
    todo_check "x = 1  # todo fix this" = true := by
  refine ⟨?_, by decide⟩
  intro line
  have hmain : todo_check line
      = (match firstSubIdx (pyLower line).toList ['t', 'o', 'd', 'o'],
              firstIdx (pyLower line).toList '#' with
         | some ti, some hi => decide (ti > hi)
         | _, _ => false) := rfl
  rw [hmain]
  cases hsub : firstSubIdx (pyLower line).toList ['t', 'o', 'd', 'o'] with
  | none =>
    cases hh : firstIdx (pyLower line).toList '#' with
    | none =>
      change (false : Bool) = true ↔ _
      simp only [Bool.false_eq_true, false_iff]
      rintro ⟨i, j, hi, -, -⟩
      exact absurd ((firstSubIdx_eq_some_iff _ _ i).mpr hi)
        (by rw [hsub]; exact Option.noConfusion)
    | some hi =>
      change (false : Bool) = true ↔ _
      simp only [Bool.false_eq_true, false_iff]
      rintro ⟨i, j, hio, -, -⟩
      exact absurd ((firstSubIdx_eq_some_iff _ _ i).mpr hio)
        (by rw [hsub]; exact Option.noConfusion)
  | some ti =>
    cases hh : firstIdx (pyLower line).toList '#' with
    | none =>
      change (false : Bool) = true ↔ _
      simp only [Bool.false_eq_true, false_iff]
      rintro ⟨i, j, -, hj, -⟩
      exact absurd ((firstIdx_eq_some_iff _ _ j).mpr hj)
        (by rw [hh]; exact Option.noConfusion)
    | some hi =>
      change decide (ti > hi) = true ↔ _
      rw [decide_eq_true_eq]
      constructor
      · intro hgt
        exact ⟨ti, hi, (firstSubIdx_eq_some_iff _ _ ti).mp hsub,
          (firstIdx_eq_some_iff _ _ hi).mp hh, hgt⟩
      · rintro ⟨i, j, hio, hj, hlt⟩
        have h1 : firstSubIdx (pyLower line).toList ['t', 'o', 'd', 'o'] = some i :=
          (firstSubIdx_eq_some_iff _ _ i).mpr hio
        have h2 : firstIdx (pyLower line).toList '#' = some j :=
          (firstIdx_eq_some_iff _ _ j).mpr hj
        rw [hsub] at h1
        rw [hh] at h2
        injection h1 with h1
        injection h2 with h2
        omega

end CodeAnalyzer

namespace CodeAnalyzer

lemma flatMap_congr_mem {α β : Type} {l : List α} {f g : α → List β}
    (h : ∀ a ∈ l, f a = g a) : l.flatMap f = l.flatMap g := by
  induction l with
  | nil => rfl
  | cons a rest ih =>
    rw [List.flatMap_cons, List.flatMap_cons, h a (by simp),
      ih (fun b hb => h b (by simp [hb]))]

lemma flatMap_range_if_single {β : Type} (xs : List β) :
    ∀ (n k : Nat), k < n →
      (List.range n).flatMap (fun j => if j = k then xs else []) = xs := by
  intro n
  induction n with
  | zero => intro k hk; exact absurd hk (Nat.not_lt_zero k)
  | succ n ih =>
    intro k hk
    rw [List.range_succ, List.flatMap_append]
    by_cases hkn : k < n
    · rw [ih k hkn]
      have h2 : [n].flatMap (fun j => if j = k then xs else []) = [] := by
        rw [List.flatMap_cons]
        simp [show n ≠ k from by omega]
      rw [h2, List.append_nil]
    · have hk' : k = n := by omega
      subst hk'
      have h1 : (List.range k).flatMap (fun j => if j = k then xs else []) = [] := by
        rw [List.flatMap_eq_nil_iff]
        intro j hj
        rw [List.mem_range] at hj
        exact if_neg (by omega)
      rw [h1, List.nil_append, List.flatMap_cons]
      simp

lemma filter_s006_line (fp : String) (lines : List String) (j : Nat) :
    (string_line_errors fp lines j).filter (fun e => e.error_code == "S006")
      = if (decide (j > 2) && (pySlice lines (j - 3) j == ["", "", ""])) = true
        then [⟨fp, j + 1, "S006", []⟩] else [] := by
  unfold string_line_errors
  simp only [List.filter_append, filter_emit]
  simp only [show (("S001" : String) == "S006") = false from rfl,
    show (("S002" : String) == "S006") = false from rfl,
    show (("S003" : String) == "S006") = false from rfl,
    show (("S004" : String) == "S006") = false from rfl,
    show (("S005" : String) == "S006") = false from rfl,
    show (("S006" : String) == "S006") = true from rfl,
    show (("S007" : String) == "S006") = false from rfl,
    Bool.and_false, Bool.and_true]
  simp

lemma blank_run_index {p s : List String} {c : String}
    (hp : ∀ x ∈ p, x ≠ "") (hc : c ≠ "") (hs : ∀ x ∈ s, x ≠ "")
    {k : Nat} (h : (p ++ "" :: "" :: "" :: c :: s)[k]? = some "") :
    k = p.length ∨ k = p.length + 1 ∨ k = p.length + 2 := by
  by_cases hk : k < p.length
  · rw [List.getElem?_append_left hk] at h
    exact absurd rfl (hp _ (List.getElem?_mem h))
  · push_neg at hk
    rw [List.getElem?_append_right hk] at h
    have hm : k - p.length < 3 := by
      by_contra hge
      push_neg at hge
      obtain ⟨m, hmm⟩ : ∃ m, k - p.length = m + 3 := ⟨k - p.length - 3, by omega⟩
      rw [hmm] at h
      rw [show m + 3 = (m + 2) + 1 from rfl, List.getElem?_cons_succ,
        show m + 2 = (m + 1) + 1 from rfl, List.getElem?_cons_succ,
        List.getElem?_cons_succ] at h
      cases m with
      | zero =>
        rw [List.getElem?_cons_zero] at h
        injection h with h
        exact hc h
      | succ m' =>
        rw [List.getElem?_cons_succ] at h
        exact absurd rfl (hs _ (List.getElem?_mem h))
    omega

lemma s006_cond_iff {p s : List String} {c : String}
    (hp : ∀ x ∈ p, x ≠ "") (hc : c ≠ "") (hs : ∀ x ∈ s, x ≠ "") (j : Nat) :
    (decide (j > 2) &&
        (pySlice (p ++ "" :: "" :: "" :: c :: s) (j - 3) j == ["", "", ""])) = true
      ↔ j = p.length + 3 := by
  rw [Bool.and_eq_true, decide_eq_true_eq, beq_iff_eq]
  constructor
  · rintro ⟨hj2, hslice⟩
    unfold pySlice at hslice
    rw [show j - (j - 3) = 3 from by omega] at hslice
    have h0 := congrArg (fun l => l[0]?) hslice
    have h1 := congrArg (fun l => l[1]?) hslice
    have h2 := congrArg (fun l => l[2]?) hslice
    simp only [List.getElem?_take] at h0 h1 h2
    rw [if_pos (by omega)] at h0 h1 h2
    rw [List.getElem?_drop] at h0 h1 h2
    have e0 := blank_run_index hp hc hs (by simpa using h0)
    have e1 := blank_run_index hp hc hs (by simpa using h1)
    have e2 := blank_run_index hp hc hs (by simpa using h2)
    rcases e0 with h | h | h <;> rcases e1 with h' | h' | h' <;>
      rcases e2 with h'' | h'' | h'' <;> omega
  · rintro rfl
    refine ⟨by omega, ?_⟩
    unfold pySlice
    rw [show p.length + 3 - 3 = p.length from by omega, List.drop_left,
      show p.length + 3 - p.length = 3 from by omega]
    rfl

/-- Claim C6: in a file whose blank lines are exactly three consecutive
empty strings immediately followed by a non-empty line, the line scanner
emits exactly one S006 (excess blank lines) violation, attributed to the
following non-empty line's 1-based number. -/
theorem claim_C6_excess_blank_lines (fp c : String) (p s : List String)
    (hp : ∀ x ∈ p, x ≠ "") (hc : c ≠ "") (hs : ∀ x ∈ s, x ≠ "") :
    (file_as_strings_analyzer fp (p ++ "" :: "" :: "" :: c :: s)).filter
        (fun e => e.error_code == "S006")
      = [⟨fp, p.length + 4, "S006", []⟩] := by
  unfold file_as_strings_analyzer
  rw [List.filter_flatMap]
  have hcongr : ∀ j ∈ List.range (p ++ "" :: "" :: "" :: c :: s).length,
      (string_line_errors fp (p ++ "" :: "" :: "" :: c :: s) j).filter
          (fun e => e.error_code == "S006")
        = (if j = p.length + 3 then [⟨fp, p.length + 4, "S006", []⟩] else []) := by
    intro j hj
    rw [filter_s006_line]
    by_cases hcond : (decide (j > 2) &&
        (pySlice (p ++ "" :: "" :: "" :: c :: s) (j - 3) j == ["", "", ""])) = true
    · have hj3 : j = p.length + 3 := (s006_cond_iff hp hc hs j).mp hcond
      rw [if_pos hcond, if_pos hj3, hj3]
    · rw [if_neg hcond,
        if_neg (fun hj3 => hcond ((s006_cond_iff hp hc hs j).mpr hj3))]
  rw [flatMap_congr_mem hcongr]
  apply flatMap_range_if_single
  rw [List.length_append]
  simp only [List.length_cons]
  omega

theorem claim_C6_witness :
    (file_as_strings_analyzer "w" ["x", "", "", "", "y"]).filter
        (fun e => e.error_code == "S006")
      = [⟨"w", 5, "S006", []⟩] :=
  claim_C6_excess_blank_lines "w" "y" ["x"] []
    (by decide) (by decide) (by decide)

end CodeAnalyzer
